import Mathlib

/-!
Shallow embedding of the submission resolution-and-upload pipeline of
`cmd/submit.go` (package `cmd`): argument sanitization, exercise matching,
metadata validation, document collection, multipart request construction and
HTTP response handling.

Filesystem model: the local filesystem is a finite association list from
absolute paths to entries (regular file with its byte content, directory, or
symbolic link).  Paths are atomic strings; `filepath.Abs` is modelled as the
identity (arguments are taken as already absolute and clean — its only failure
mode, an unresolvable working directory, is environmental), and
`filepath.EvalSymlinks` is modelled as whole-path link chasing with fuel
(a cycle or dangling link yields an error, as ELOOP/ENOENT do in Go).

External collaborators that live in this repository but outside the sources at
hand (`workspace`, `api`, config) are modelled from the spec where the code
consumes them; each such definition's doc comment says so.
-/

/-- A filesystem entry: a regular file with its byte content, a directory, or
a symbolic link to a target path. -/
inductive Entry : Type
  | file (content : List Nat)
  | dir
  | symlink (target : String)
  deriving DecidableEq, Repr

/-- The filesystem: a finite map from absolute paths to entries. -/
def FS : Type := List (String × Entry)

/-- Models `os.Lstat`: look the path up without following symbolic links.
`none` models the "does not exist" stat failure. -/
def FS.lstat (fs : FS) (p : String) : Option Entry :=
  List.lookup p fs

/-- Follow a chain of symbolic links for at most `fuel` steps, returning the
final real path.  Models `filepath.EvalSymlinks` on the whole-path level. -/
def FS.chase (fs : FS) : Nat → String → Option String
  | 0, _ => none
  | n + 1, p =>
    match List.lookup p fs with
    | none => none
    | some (Entry.symlink t) => FS.chase fs n t
    | some _ => some p

/-- Models `filepath.EvalSymlinks`: resolve symlinks to the final real path; fuel
`fs.length + 1` suffices for any acyclic chain, and a cycle fails like ELOOP. -/
def FS.evalSymlinks (fs : FS) (p : String) : Option String :=
  FS.chase fs (fs.length + 1) p

/-- Models `os.Stat` and `os.Open` with a read: follow symlinks and return the byte content
of the regular file reached.  `os.Stat` reads the size off this content and
`io.Copy` streams it.  Directories are not reached by the pipeline at these
call sites (arguments were sanitized); a directory here is modelled as an I/O
failure, standing in for the platform-dependent behaviour. -/
def FS.readFile (fs : FS) (p : String) : Option (List Nat) :=
  match FS.evalSymlinks fs p with
  | none => none
  | some q =>
    match List.lookup q fs with
    | some (Entry.file c) => some c
    | _ => none

/-- The error taxonomy of the pipeline.  Each constructor corresponds to one
distinct `return`/`fmt.Errorf` site of `cmd/submit.go` (the constant guidance
text of each message is elided; the data interpolated into the message is
carried as arguments). -/
inductive SubmitError : Type
  | notFound (path : String)
  | unsupportedTarget (path : String)
  | ioErr (msg : String)
  | missingMetadata
  | mixedSolution
  | slugMismatch (expected got : String)
  | unlinkedSolution (exercise track : String)
  | fileTooLarge (path : String) (limit : Nat)
  | noFilesToSubmit
  | invalidState (msg : String)
  | networkErr (msg : String)
  | protocolErr (msg : String)
  | apiErr (message : String)
  deriving DecidableEq, Repr

/-- The per-argument body of `submitContext.sanitizeArgs`: make the path
absolute (identity here), `Lstat` it, reject missing paths and directories,
and resolve symlinks to the real path. -/
def sanitizeOne (fs : FS) (arg : String) : Except SubmitError String :=
  match FS.lstat fs arg with
  | none => Except.error (SubmitError.notFound arg)
  | some Entry.dir => Except.error (SubmitError.unsupportedTarget arg)
  | some _ =>
    match FS.evalSymlinks fs arg with
    | none => Except.error (SubmitError.ioErr ("EvalSymlinks " ++ arg))
    | some src => Except.ok src

/-- Models `submitContext.sanitizeArgs`: validate every argument in order and swap it
with its symlink-evaluated path.  In Go the context's `args` slice is mutated
in place (`s.args[i] = src`); here the updated slice is the returned list. -/
def sanitizeArgs (fs : FS) : List String → Except SubmitError (List String)
  | [] => Except.ok []
  | a :: as =>
    match sanitizeOne fs a with
    | Except.error e => Except.error e
    | Except.ok r =>
      match sanitizeArgs fs as with
      | Except.error e => Except.error e
      | Except.ok rs => Except.ok (r :: rs)

/-- An exercise solution directory.  Modelled from the spec: "slug (exercise
identifier), track identifier, absolute root directory". -/
structure Exercise : Type where
  root : String
  track : String
  slug : String
  deriving DecidableEq, Repr

/-- Modelled from the spec: `workspace.NewExerciseFromDir` builds the Exercise
identity from the directory path, whose last component is the exercise slug
and whose second-to-last component is the track. -/
def NewExerciseFromDir (dir : String) : Exercise :=
  let cs := dir.splitOn "/"
  { root := dir
    track := (cs.drop (cs.length - 2)).headD ""
    slug := cs.getLast?.getD "" }

/-- Models `Exercise.Filepath()`: the absolute path to the solution directory. -/
def Exercise.Filepath (e : Exercise) : String := e.root

/-- Errors of the workspace resolver `workspace.Workspace.ExerciseDir`, an
external collaborator: `workspace.IsMissingMetadata` distinguishes the
"missing required per-exercise metadata" variant. -/
inductive WsError : Type
  | missingMetadata
  | other (msg : String)
  deriving DecidableEq, Repr

/-- The loop of `submitContext._exercise`: resolve each argument to its owning
exercise directory, track the first directory seen (`""` is the initial
sentinel of the `exerciseDir` variable), and reject a second distinct one. -/
def exerciseDirLoop (resolver : String → Except WsError String) :
    String → List String → Except SubmitError String
  | cur, [] => Except.ok cur
  | cur, a :: as =>
    match resolver a with
    | Except.error WsError.missingMetadata =>
      Except.error SubmitError.missingMetadata
    | Except.error (WsError.other m) => Except.error (SubmitError.ioErr m)
    | Except.ok d =>
      if cur ≠ "" ∧ d ≠ cur then Except.error SubmitError.mixedSolution
      else exerciseDirLoop resolver d as

/-- Models `submitContext._exercise`: fold the resolver over the sanitized arguments
and build one Exercise from the agreed-upon directory. -/
def submitExercise (resolver : String → Except WsError String)
    (args : List String) : Except SubmitError Exercise :=
  match exerciseDirLoop resolver "" args with
  | Except.error e => Except.error e
  | Except.ok d => Except.ok (NewExerciseFromDir d)

/-- The persisted exercise metadata record.  Modelled from the spec:
solution ID, exercise slug, track, requester flag, auto-approve flag, team,
solution URL. -/
structure ExerciseMetadata : Type where
  ID : String
  exercise : String
  track : String
  isRequester : Bool
  autoApprove : Bool
  team : String
  url : String
  deriving DecidableEq, Repr

/-- Models `submitContext._metadata`: load the metadata from the exercise directory
(the loader models the external `workspace.NewExerciseMetadata`), then check
the slug and the requester flag. -/
def submitMetadata (load : String → Except String ExerciseMetadata)
    (ex : Exercise) : Except SubmitError ExerciseMetadata :=
  match load ex.Filepath with
  | Except.error e => Except.error (SubmitError.ioErr e)
  | Except.ok md =>
    if md.exercise ≠ ex.slug then
      Except.error (SubmitError.slugMismatch ex.slug md.exercise)
    else if ¬ md.isRequester then
      Except.error (SubmitError.unlinkedSolution md.exercise md.track)
    else Except.ok md

/-- A file queued for upload.  Modelled from the spec: "a file queued for
upload: exercise-relative path label, absolute filesystem path" (the byte size
lives in the filesystem).  `Path()` is `relativePath`; `Filepath()` is
`filepath`. -/
structure Document : Type where
  relativePath : String
  filepath : String
  deriving DecidableEq, Repr

/-- Character-level string prefix test (`String.isPrefixOf` is extern-backed
and does not evaluate inside proofs; this list-based equivalent does). -/
def strHasPrefix (pre s : String) : Bool :=
  pre.toList.isPrefixOf s.toList

/-- Modelled from the spec: `workspace.NewDocument root file` labels the file
with its path relative to the exercise root. -/
def NewDocument (root file : String) : Except String Document :=
  if strHasPrefix (root ++ "/") file then
    Except.ok { relativePath := file.drop (root.length + 1), filepath := file }
  else Except.error ("not in exercise directory: " ++ file)

/-- The maximum allowed file size of `submitContext._documents`. -/
def maxFileSize : Nat := 65535

/-- The loop of `submitContext._documents`: stat each file, abort on a file of
size `≥ maxFileSize`, skip empty files (the non-fatal warning printed to
stderr is an effect outside the model), and turn the rest into Documents. -/
def documentsLoop (fs : FS) (root : String) :
    List String → Except SubmitError (List Document)
  | [] => Except.ok []
  | f :: rest =>
    match FS.readFile fs f with
    | none => Except.error (SubmitError.ioErr ("stat " ++ f))
    | some c =>
      if c.length ≥ maxFileSize then
        Except.error (SubmitError.fileTooLarge f maxFileSize)
      else if c.length = 0 then documentsLoop fs root rest
      else
        match NewDocument root f with
        | Except.error e => Except.error (SubmitError.ioErr e)
        | Except.ok d =>
          match documentsLoop fs root rest with
          | Except.error e => Except.error e
          | Except.ok ds => Except.ok (d :: ds)

/-- Models `submitContext._documents`: collect the Documents and fail with
`NoFilesToSubmitError` when none were produced. -/
def submitDocumentsList (fs : FS) (ex : Exercise) (args : List String) :
    Except SubmitError (List Document) :=
  match documentsLoop fs ex.Filepath args with
  | Except.error e => Except.error e
  | Except.ok [] => Except.error SubmitError.noFilesToSubmit
  | Except.ok ds => Except.ok ds

/-- One part of the multipart body, as produced by
`writer.CreateFormFile("files[]", doc.Path())` followed by `io.Copy`. -/
structure FormPart : Type where
  fieldName : String
  fileName : String
  content : List Nat
  deriving DecidableEq, Repr

/-- The outbound HTTP request: method, target URL and multipart body.  The
boundary-qualified `Content-Type` header carries a random boundary and is not
modelled. -/
structure Request : Type where
  method : String
  url : String
  parts : List FormPart
  deriving DecidableEq, Repr

/-- The inner payload of the structured 400-error body. -/
structure ApiErrorPayload : Type where
  errType : String
  message : String
  deriving DecidableEq, Repr

/-- The `apiErrorMessage` shape `{"error": {"type": ..., "message": ...}}`. -/
structure apiErrorMessage : Type where
  error : ApiErrorPayload
  deriving DecidableEq, Repr

/-- The observable behaviour of a response body stream at the two points the
code uses it: the result of `json.NewDecoder(resp.Body).Decode` (the
`encoding/json` decoder is abstracted into the result it produces on this
body), and the result of draining the body with `bb.ReadFrom(resp.Body)` (the
drained bytes are discarded, so only success or the read error is kept). -/
structure RespBody : Type where
  decoded : Except String apiErrorMessage
  drained : Except String Unit
  deriving Repr

/-- An inbound HTTP response: status code and body stream. -/
structure Response : Type where
  statusCode : Nat
  body : RespBody
  deriving Repr

/-- The flag characters of Go's `fmt` verb syntax. -/
def goFmtFlag (c : Char) : Bool :=
  c = '#' || c = '0' || c = '+' || c = '-' || c = ' '

/-- Parsing state inside one `%` verb of a `fmt` format string: scanning the
flags, the width digits, or the precision digits. -/
inductive FmtSt : Type
  | normal
  | flags
  | width
  | prec
  deriving DecidableEq, Repr

/-- Scanner for Go's `fmt` with NO operands supplied, as `doPrintf` behaves
when the argument list is exhausted: ordinary characters are copied; after a
`%` the flags, width and precision are parsed and dropped; the verb `%`
prints a literal `%`; a format ending inside a verb prints `%!(NOVERB)`; any
other verb has no operand and prints `%!v(MISSING)`.  (The `*` width and
precision, which would consume operands of their own, do not occur in the
strings considered in this development.) -/
def goFmtAux : FmtSt → List Char → List Char
  | FmtSt.normal, [] => []
  | FmtSt.normal, c :: r =>
    if c = '%' then goFmtAux FmtSt.flags r else c :: goFmtAux FmtSt.normal r
  | FmtSt.flags, [] => "%!(NOVERB)".toList
  | FmtSt.flags, c :: r =>
    if goFmtFlag c then goFmtAux FmtSt.flags r
    else if c.isDigit then goFmtAux FmtSt.width r
    else if c = '.' then goFmtAux FmtSt.prec r
    else if c = '%' then '%' :: goFmtAux FmtSt.normal r
    else '%' :: '!' :: c :: ("(MISSING)".toList ++ goFmtAux FmtSt.normal r)
  | FmtSt.width, [] => "%!(NOVERB)".toList
  | FmtSt.width, c :: r =>
    if c.isDigit then goFmtAux FmtSt.width r
    else if c = '.' then goFmtAux FmtSt.prec r
    else if c = '%' then '%' :: goFmtAux FmtSt.normal r
    else '%' :: '!' :: c :: ("(MISSING)".toList ++ goFmtAux FmtSt.normal r)
  | FmtSt.prec, [] => "%!(NOVERB)".toList
  | FmtSt.prec, c :: r =>
    if c.isDigit then goFmtAux FmtSt.prec r
    else if c = '%' then '%' :: goFmtAux FmtSt.normal r
    else '%' :: '!' :: c :: ("(MISSING)".toList ++ goFmtAux FmtSt.normal r)

/-- Models `fmt.Errorf(format)` called with no operands: the message of the error it
returns.  This is how line 342 of `cmd/submit.go` turns the server's message
string into the user-facing error text. -/
def goFmtNoOperands (s : String) : String :=
  String.mk (goFmtAux FmtSt.normal s.toList)


/-- The response-handling tail of `submitContext.submitDocuments`
(lines 336-350): a 400 decodes the structured error body — a decode failure
is wrapped into the protocol error, a decoded body is passed through
`fmt.Errorf` as a format string with no operands; any other status drains the
body and reports success, unless the drain itself fails. -/
def handleResponse (resp : Response) : Except SubmitError Unit :=
  if resp.statusCode = 400 then
    match resp.body.decoded with
    | Except.error e =>
      Except.error (SubmitError.protocolErr ("failed to parse error response - " ++ e))
    | Except.ok j =>
      Except.error (SubmitError.apiErr (goFmtNoOperands j.error.message))
  else
    match resp.body.drained with
    | Except.error e => Except.error (SubmitError.ioErr e)
    | Except.ok _ => Except.ok ()

/-- The multipart-building loop of `submitContext.submitDocuments`: open each
document's file (an unreadable file is an I/O failure) and append one part
with field name `files[]`, the document's relative path as filename, and the
file's bytes as content.  `writer.Close` on an in-memory buffer cannot fail
and is not modelled. -/
def buildParts (fs : FS) : List Document → Except SubmitError (List FormPart)
  | [] => Except.ok []
  | d :: ds =>
    match FS.readFile fs d.filepath with
    | none => Except.error (SubmitError.ioErr ("open " ++ d.filepath))
    | some c =>
      match buildParts fs ds with
      | Except.error e => Except.error e
      | Except.ok ps =>
        Except.ok ({ fieldName := "files[]", fileName := d.relativePath,
                     content := c } :: ps)

/-- The `submission` record threaded through the context: the matched
exercise, its validated metadata, and the collected documents. -/
structure Submission : Type where
  exercise : Exercise
  metadata : ExerciseMetadata
  documents : List Document

/-- Models `submitContext.submitDocuments`: defensively check the solution ID and the
document list, build the multipart body, issue the single
`PATCH {apibaseurl}/solutions/{metadata.ID}` exchange through the transport
(the external `api.Client`, whose `Do` failure is the network error), and
handle the response.  The first component records the requests actually
handed to the transport, so that "exactly one request is issued" is a
statement of the model. -/
def submitDocuments (fs : FS) (apibaseurl : String) (s : Submission)
    (transport : Request → Except String Response) :
    List Request × Except SubmitError Unit :=
  if s.metadata.ID = "" then
    ([], Except.error (SubmitError.invalidState "id is empty"))
  else if s.documents.isEmpty then
    ([], Except.error (SubmitError.invalidState "documents is empty"))
  else
    match buildParts fs s.documents with
    | Except.error e => ([], Except.error e)
    | Except.ok parts =>
      let req : Request :=
        { method := "PATCH"
          url := apibaseurl ++ "/solutions/" ++ s.metadata.ID
          parts := parts }
      ([req],
        match transport req with
        | Except.error e => Except.error (SubmitError.networkErr e)
        | Except.ok resp => handleResponse resp)

/-- A candidate file is kept by the document collector when its stat succeeds
and its size is neither zero nor over the limit; this predicate records the
"non-empty" half (the file exists and has at least one byte). -/
def keepFile (fs : FS) (a : String) : Bool :=
  match FS.readFile fs a with
  | some c => c.length != 0
  | none => false

/-- A path is a good input for the document collector rooted at `root`: it
stats to a regular file whose size is under the limit and it lies under the
exercise root. -/
def goodInput (fs : FS) (root a : String) : Bool :=
  match FS.readFile fs a with
  | some c => decide (c.length < maxFileSize) && strHasPrefix (root ++ "/") a
  | none => false

/-- The Document the collector builds for a kept path. -/
def toDoc (root a : String) : Document :=
  { relativePath := a.drop (root.length + 1), filepath := a }

theorem goodInput_elim {fs : FS} {root a : String}
    (h : goodInput fs root a = true) :
    ∃ c, FS.readFile fs a = some c ∧ c.length < maxFileSize ∧
      strHasPrefix (root ++ "/") a = true := by
  unfold goodInput at h
  cases hr : FS.readFile fs a with
  | none => rw [hr] at h; exact absurd h (by simp)
  | some c =>
    rw [hr] at h
    simp at h
    exact ⟨c, rfl, h.1, h.2⟩

theorem NewDocument_ok {root a : String}
    (h : strHasPrefix (root ++ "/") a = true) :
    NewDocument root a = Except.ok (toDoc root a) := by
  unfold NewDocument toDoc
  rw [if_pos h]

/-- On good inputs the collection loop succeeds and produces exactly one
Document per non-empty input file, in input order. -/
theorem documentsLoop_eq (fs : FS) (root : String) (args : List String)
    (h : ∀ a ∈ args, goodInput fs root a = true) :
    documentsLoop fs root args =
      Except.ok ((args.filter (keepFile fs)).map (toDoc root)) := by
  induction args with
  | nil => rfl
  | cons a as ih =>
    obtain ⟨c, hc, hlt, hpre⟩ := goodInput_elim (h a (by simp))
    have ih' := ih (fun b hb => h b (by simp [hb]))
    unfold documentsLoop
    simp only [hc]
    have hge : ¬ c.length ≥ maxFileSize := by omega
    by_cases h0 : c.length = 0
    · rw [if_neg hge, if_pos h0, ih']
      have hkeep : keepFile fs a = false := by simp [keepFile, hc, h0]
      simp [List.filter_cons, hkeep]
    · rw [if_neg hge, if_neg h0, NewDocument_ok hpre, ih']
      have hkeep : keepFile fs a = true := by simp [keepFile, hc, h0]
      simp [List.filter_cons, hkeep]

/-- An oversized file aborts the collection loop with `FileTooLargeError`
naming that file, whatever follows it. -/
theorem documentsLoop_tooLarge (fs : FS) (root : String) (pre : List String)
    (f : String) (post : List String) (c : List Nat)
    (hpre : ∀ a ∈ pre, goodInput fs root a = true)
    (hf : FS.readFile fs f = some c) (hc : maxFileSize ≤ c.length) :
    documentsLoop fs root (pre ++ f :: post) =
      Except.error (SubmitError.fileTooLarge f maxFileSize) := by
  induction pre with
  | nil =>
    unfold documentsLoop
    simp only [List.nil_append, hf]
    rw [if_pos hc]
  | cons a as ih =>
    obtain ⟨ca, hca, hlt, hpa⟩ := goodInput_elim (hpre a (by simp))
    have ih' := ih (fun b hb => hpre b (by simp [hb]))
    unfold documentsLoop
    simp only [List.cons_append, hca]
    have hge : ¬ ca.length ≥ maxFileSize := by omega
    by_cases h0 : ca.length = 0
    · rw [if_neg hge, if_pos h0]
      exact ih'
    · rw [if_neg hge, if_neg h0, NewDocument_ok hpa]
      simp [ih']

/-- The one part built for a Document: field name literally `files[]`,
filename the document's exercise-relative path, content the file's bytes. -/
def partOf (fs : FS) (d : Document) : FormPart :=
  { fieldName := "files[]", fileName := d.relativePath,
    content := (FS.readFile fs d.filepath).getD [] }

/-- When every document's file is readable, the multipart builder produces one
part per document, in document order. -/
theorem buildParts_eq (fs : FS) (docs : List Document)
    (h : ∀ d ∈ docs, (FS.readFile fs d.filepath).isSome = true) :
    buildParts fs docs = Except.ok (docs.map (partOf fs)) := by
  induction docs with
  | nil => rfl
  | cons d ds ih =>
    have hd := h d (by simp)
    obtain ⟨c, hc⟩ := Option.isSome_iff_exists.mp hd
    have ih' := ih (fun b hb => h b (by simp [hb]))
    unfold buildParts
    simp only [hc, ih']
    simp [partOf, hc]

/-- If every argument resolves to the same exercise directory, the matching
loop started at that directory agrees on it. -/
theorem exerciseDirLoop_all_same (resolver : String → Except WsError String)
    (d : String) (l : List String)
    (h : ∀ a ∈ l, resolver a = Except.ok d) :
    exerciseDirLoop resolver d l = Except.ok d := by
  induction l with
  | nil => rfl
  | cons a as ih =>
    have ha := h a (by simp)
    unfold exerciseDirLoop
    simp only [ha]
    rw [if_neg (by simp)]
    exact ih (fun b hb => h b (by simp [hb]))

/-- Once a non-empty directory is being tracked, any later argument resolving
to a different directory makes the loop fail with the mixed-solution error
(provided every argument up to it resolves). -/
theorem exerciseDirLoop_mismatch (resolver : String → Except WsError String)
    (cur : String) (l : List String) (hcur : cur ≠ "")
    (hres : ∀ a ∈ l, ∃ d, resolver a = Except.ok d ∧ d ≠ "")
    (hmix : ∃ a ∈ l, ∃ d, resolver a = Except.ok d ∧ d ≠ cur) :
    exerciseDirLoop resolver cur l = Except.error SubmitError.mixedSolution := by
  induction l generalizing cur with
  | nil => exact absurd hmix (by simp)
  | cons a as ih =>
    obtain ⟨da, hda, _⟩ := hres a (by simp)
    unfold exerciseDirLoop
    simp only [hda]
    by_cases hne : da = cur
    · rw [if_neg (by simp [hne])]
      subst hne
      apply ih da hcur (fun b hb => hres b (by simp [hb]))
      obtain ⟨x, hx, dx, hdx, hdxne⟩ := hmix
      rcases List.mem_cons.mp hx with hxa | hxas
      · subst hxa
        rw [hda] at hdx
        exact absurd (Except.ok.inj hdx).symm hdxne
      · exact ⟨x, hxas, dx, hdx, hdxne⟩
    · rw [if_pos ⟨hcur, hne⟩]

/-- The single request `submitDocuments` hands to the transport once the
defensive checks pass and the body builds. -/
def reqOf (fs : FS) (base : String) (s : Submission) : Request :=
  { method := "PATCH"
    url := base ++ "/solutions/" ++ s.metadata.ID
    parts := s.documents.map (partOf fs) }

theorem submitDocuments_fst (fs : FS) (base : String) (s : Submission)
    (transport : Request → Except String Response)
    (hid : s.metadata.ID ≠ "") (hdocs : s.documents ≠ [])
    (hread : ∀ d ∈ s.documents, (FS.readFile fs d.filepath).isSome = true) :
    (submitDocuments fs base s transport).1 = [reqOf fs base s] := by
  unfold submitDocuments
  rw [if_neg hid, if_neg (by simp [List.isEmpty_iff, hdocs]),
    buildParts_eq fs s.documents hread]
  simp [reqOf]

theorem submitDocuments_snd_ok (fs : FS) (base : String) (s : Submission)
    (transport : Request → Except String Response) (resp : Response)
    (hid : s.metadata.ID ≠ "") (hdocs : s.documents ≠ [])
    (hread : ∀ d ∈ s.documents, (FS.readFile fs d.filepath).isSome = true)
    (hresp : transport (reqOf fs base s) = Except.ok resp) :
    (submitDocuments fs base s transport).2 = handleResponse resp := by
  unfold submitDocuments
  rw [if_neg hid, if_neg (by simp [List.isEmpty_iff, hdocs]),
    buildParts_eq fs s.documents hread]
  simp only [reqOf] at hresp
  simp [hresp]

/-- C7: metadata validation succeeds exactly when the metadata's exercise
slug equals the resolved exercise's slug and its requester flag is set; a
slug mismatch always fails with the slug-mismatch error carrying both values
(whatever the requester flag is), and an unset requester flag with a matching
slug always fails with the unlinked-solution error. -/
theorem claim_C7_metadata_validation
    (load : String → Except String ExerciseMetadata)
    (ex : Exercise) (md : ExerciseMetadata)
    (h : load ex.Filepath = Except.ok md) :
    (submitMetadata load ex = Except.ok md ↔
      (md.exercise = ex.slug ∧ md.isRequester = true)) ∧
    (md.exercise ≠ ex.slug →
      submitMetadata load ex =
        Except.error (SubmitError.slugMismatch ex.slug md.exercise)) ∧
    (md.exercise = ex.slug → md.isRequester = false →
      submitMetadata load ex =
        Except.error (SubmitError.unlinkedSolution md.exercise md.track)) := by
  unfold submitMetadata
  rw [h]
  by_cases hs : md.exercise = ex.slug
  · by_cases hr : md.isRequester = true
    · simp [hs, hr]
    · simp [hs, hr, Bool.not_eq_true] at hr ⊢
  · simp [hs]

/-- C7 witness: a concrete metadata record with matching slug and set
requester flag passes validation. -/
theorem claim_C7_witness :
    (submitMetadata
        (fun _ => Except.ok
          { ID := "abc123", exercise := "hello", track := "go",
            isRequester := true, autoApprove := false, team := "",
            url := "https://exercism.io/my/solutions/abc123" })
        { root := "/ws/go/hello", track := "go", slug := "hello" } =
      Except.ok
        { ID := "abc123", exercise := "hello", track := "go",
          isRequester := true, autoApprove := false, team := "",
          url := "https://exercism.io/my/solutions/abc123" } ↔
      (("hello" : String) = "hello" ∧ true = true)) ∧
    (("hello" : String) ≠ "hello" →
      submitMetadata
        (fun _ => Except.ok
          { ID := "abc123", exercise := "hello", track := "go",
            isRequester := true, autoApprove := false, team := "",
            url := "https://exercism.io/my/solutions/abc123" })
        { root := "/ws/go/hello", track := "go", slug := "hello" } =
        Except.error (SubmitError.slugMismatch "hello" "hello")) ∧
    (("hello" : String) = "hello" → true = false →
      submitMetadata
        (fun _ => Except.ok
          { ID := "abc123", exercise := "hello", track := "go",
            isRequester := true, autoApprove := false, team := "",
            url := "https://exercism.io/my/solutions/abc123" })
        { root := "/ws/go/hello", track := "go", slug := "hello" } =
        Except.error (SubmitError.unlinkedSolution "hello" "go")) :=
  claim_C7_metadata_validation _ _ _ rfl

theorem sanitizeOne_evalSymlinks {fs : FS} {a r : String}
    (h : sanitizeOne fs a = Except.ok r) : FS.evalSymlinks fs a = some r := by
  unfold sanitizeOne at h
  cases hl : FS.lstat fs a with
  | none => rw [hl] at h; exact absurd h (by simp)
  | some e =>
    rw [hl] at h
    cases e with
    | dir => exact absurd h (by simp)
    | file c =>
      cases he : FS.evalSymlinks fs a with
      | none => rw [he] at h; exact absurd h (by simp)
      | some src => rw [he] at h; simp at h; rw [h]
    | symlink t =>
      cases he : FS.evalSymlinks fs a with
      | none => rw [he] at h; exact absurd h (by simp)
      | some src => rw [he] at h; simp at h; rw [h]

/-- C9: when `sanitizeArgs` returns successfully, the argument slice the
context holds (aliasing the caller's slice) has the same length as the input
and its every element has been overwritten with that element's
symlink-resolved path — positionally, element by element. -/
theorem claim_C9_args_overwritten (fs : FS) (args out : List String)
    (h : sanitizeArgs fs args = Except.ok out) :
    out.length = args.length ∧
    List.Forall₂ (fun a r => sanitizeOne fs a = Except.ok r ∧
      FS.evalSymlinks fs a = some r) args out := by
  induction args generalizing out with
  | nil =>
    unfold sanitizeArgs at h
    simp at h
    subst h
    exact ⟨rfl, List.Forall₂.nil⟩
  | cons a as ih =>
    unfold sanitizeArgs at h
    cases h1 : sanitizeOne fs a with
    | error e => rw [h1] at h; exact absurd h (by simp)
    | ok r =>
      rw [h1] at h
      cases h2 : sanitizeArgs fs as with
      | error e => rw [h2] at h; exact absurd h (by simp)
      | ok rs =>
        rw [h2] at h
        simp at h
        subst h
        obtain ⟨hlen, hfa⟩ := ih rs h2
        exact ⟨by simp [hlen],
          List.Forall₂.cons ⟨h1, sanitizeOne_evalSymlinks h1⟩ hfa⟩

/-- C9 witness: a concrete two-element argument list, one entry a symlink,
is overwritten with the resolved paths. -/
theorem claim_C9_witness :
    (["/ws/go/hello/real.go", "/ws/go/hello/target.go"] : List String).length =
      (["/ws/go/hello/real.go", "/ws/go/hello/ln.go"] : List String).length ∧
    List.Forall₂ (fun a r =>
      sanitizeOne [("/ws/go/hello/real.go", Entry.file [1]),
        ("/ws/go/hello/ln.go", Entry.symlink "/ws/go/hello/target.go"),
        ("/ws/go/hello/target.go", Entry.file [2])] a = Except.ok r ∧
      FS.evalSymlinks [("/ws/go/hello/real.go", Entry.file [1]),
        ("/ws/go/hello/ln.go", Entry.symlink "/ws/go/hello/target.go"),
        ("/ws/go/hello/target.go", Entry.file [2])] a = some r)
      ["/ws/go/hello/real.go", "/ws/go/hello/ln.go"]
      ["/ws/go/hello/real.go", "/ws/go/hello/target.go"] :=
  claim_C9_args_overwritten _ _ _ rfl

/-- C8 counterexample: an argument that is a symlink whose target is a
directory passes path resolution — `Lstat` sees a symlink, not a directory,
so the directory check does not fire, and the resolved value is the
directory's path.  This refutes "no directory ever passes the
path-resolution stage". -/
theorem claim_C8_counterexample :
    sanitizeArgs
      [("/ws/go/hello/lnk", Entry.symlink "/ws/go/hello/sub"),
       ("/ws/go/hello/sub", Entry.dir)]
      ["/ws/go/hello/lnk"] = Except.ok ["/ws/go/hello/sub"] ∧
    FS.lstat
      [("/ws/go/hello/lnk", Entry.symlink "/ws/go/hello/sub"),
       ("/ws/go/hello/sub", Entry.dir)]
      "/ws/go/hello/sub" = some Entry.dir :=
  ⟨rfl, rfl⟩

/-- C8 (amended): every argument that is itself a directory — `Lstat`, which
does not follow symlinks, reports a directory — fails path resolution with
`UnsupportedTargetError` naming it, provided the arguments before it pass; a
symlink whose target is a directory is not rejected. -/
theorem claim_C8_directory_rejected (fs : FS) (pre : List String) (a : String)
    (post : List String)
    (hpre : ∀ p ∈ pre, ∃ r, sanitizeOne fs p = Except.ok r)
    (ha : FS.lstat fs a = some Entry.dir) :
    sanitizeArgs fs (pre ++ a :: post) =
      Except.error (SubmitError.unsupportedTarget a) := by
  induction pre with
  | nil =>
    simp only [List.nil_append]
    unfold sanitizeArgs sanitizeOne
    simp only [ha]
  | cons p ps ih =>
    obtain ⟨r, hr⟩ := hpre p (by simp)
    have ih' := ih (fun q hq => hpre q (by simp [hq]))
    simp only [List.cons_append]
    unfold sanitizeArgs
    simp only [hr, ih']

/-- C8 witness: a concrete directory argument is rejected with the
unsupported-target error. -/
theorem claim_C8_directory_rejected_witness :
    sanitizeArgs
      [("/ws/go/hello/a.go", Entry.file [1]), ("/ws/go/hello", Entry.dir)]
      (["/ws/go/hello/a.go"] ++ "/ws/go/hello" :: []) =
      Except.error (SubmitError.unsupportedTarget "/ws/go/hello") :=
  claim_C8_directory_rejected _ _ _ _
    (by intro p hp
        simp at hp
        subst hp
        exact ⟨"/ws/go/hello/a.go", rfl⟩)
    rfl

/-- A concrete exercise used by the closed scenarios below. -/
def exDemo : Exercise := { root := "/ws/go/hello", track := "go", slug := "hello" }

/-- A concrete valid metadata record. -/
def mdDemo : ExerciseMetadata :=
  { ID := "abc123", exercise := "hello", track := "go", isRequester := true,
    autoApprove := false, team := "",
    url := "https://exercism.io/my/solutions/abc123" }

/-- A concrete filesystem holding one three-byte solution file. -/
def fsDemo : FS := [("/ws/go/hello/hello.go", Entry.file [112, 97, 99])]

/-- The document list collected for `fsDemo`. -/
def docsDemo : List Document :=
  [{ relativePath := "hello.go", filepath := "/ws/go/hello/hello.go" }]

/-- The submission assembled from the demo exercise, metadata and documents. -/
def subDemo : Submission :=
  { exercise := exDemo, metadata := mdDemo, documents := docsDemo }

/-- C10: on a response whose status is not 400, the upload still fails — with
the drain's I/O error — when reading the response body to discard it fails;
a non-400 status alone is not sufficient for success. -/
theorem claim_C10_drain_failure (fs : FS) (base : String) (s : Submission)
    (transport : Request → Except String Response) (resp : Response)
    (e : String)
    (hid : s.metadata.ID ≠ "") (hdocs : s.documents ≠ [])
    (hread : ∀ d ∈ s.documents, (FS.readFile fs d.filepath).isSome = true)
    (htrans : transport (reqOf fs base s) = Except.ok resp)
    (hstatus : resp.statusCode ≠ 400)
    (hdrain : resp.body.drained = Except.error e) :
    (submitDocuments fs base s transport).2 =
      Except.error (SubmitError.ioErr e) := by
  rw [submitDocuments_snd_ok fs base s transport resp hid hdocs hread htrans]
  unfold handleResponse
  rw [if_neg hstatus]
  simp only [hdrain]

/-- C10 witness: a concrete 503 response whose body read fails surfaces the
read error. -/
theorem claim_C10_drain_failure_witness :
    (submitDocuments fsDemo "https://api.exercism.io/v1" subDemo
        (fun _ => Except.ok
          { statusCode := 503,
            body := { decoded := Except.error "unexpected EOF",
                      drained := Except.error "read tcp: broken pipe" } })).2 =
      Except.error (SubmitError.ioErr "read tcp: broken pipe") :=
  claim_C10_drain_failure fsDemo "https://api.exercism.io/v1" subDemo _ _ _
    (by decide) (by decide) (by decide) rfl (by decide) rfl

/-- C3 counterexample: a concrete response with status 500 — not 400 — on
which the upload does NOT succeed, because draining the body fails; the
claim's unconditional "treated as success" is false for it. -/
theorem claim_C3_counterexample :
    (500 : Nat) ≠ 400 ∧
    (submitDocuments fsDemo "https://api.exercism.io/v1" subDemo
        (fun _ => Except.ok
          { statusCode := 500,
            body := { decoded := Except.error "unexpected EOF",
                      drained := Except.error "read tcp: connection reset" } })).2 =
      Except.error (SubmitError.ioErr "read tcp: connection reset") :=
  ⟨by decide, rfl⟩

/-- C3 (amended): every response whose status code is not 400 — 500 and other
non-2xx codes included — is treated as success, provided draining the
response body succeeds; the body is discarded without being parsed. -/
theorem claim_C3_non400_success (fs : FS) (base : String) (s : Submission)
    (transport : Request → Except String Response) (resp : Response)
    (hid : s.metadata.ID ≠ "") (hdocs : s.documents ≠ [])
    (hread : ∀ d ∈ s.documents, (FS.readFile fs d.filepath).isSome = true)
    (htrans : transport (reqOf fs base s) = Except.ok resp)
    (hstatus : resp.statusCode ≠ 400)
    (hdrain : resp.body.drained = Except.ok ()) :
    (submitDocuments fs base s transport).2 = Except.ok () := by
  rw [submitDocuments_snd_ok fs base s transport resp hid hdocs hread htrans]
  unfold handleResponse
  rw [if_neg hstatus]
  simp only [hdrain]

/-- C3 witness: a concrete 500 response with a readable body is reported as
success. -/
theorem claim_C3_non400_success_witness :
    (submitDocuments fsDemo "https://api.exercism.io/v1" subDemo
        (fun _ => Except.ok
          { statusCode := 500,
            body := { decoded := Except.error "unexpected EOF",
                      drained := Except.ok () } })).2 = Except.ok () :=
  claim_C3_non400_success fsDemo "https://api.exercism.io/v1" subDemo _ _
    (by decide) (by decide) (by decide) rfl (by decide) rfl

/-- C2: a concrete 400 exchange showing the divergence.  The server's body
decodes to the message `"error rate 100%"`, but line 342 passes that message
to `fmt.Errorf` as a format string with no operands, so the surfaced error
message is `"error rate 100%!(NOVERB)"`, not the server's message character
for character.  (A decode failure, by contrast, is wrapped into the protocol
error, as the final conjunct shows.) -/
theorem claim_C2_message_mangled :
    (submitDocuments fsDemo "https://api.exercism.io/v1" subDemo
        (fun _ => Except.ok
          { statusCode := 400,
            body := { decoded := Except.ok
                        { error := { errType := "validation",
                                     message := "error rate 100%" } },
                      drained := Except.ok () } })).2 =
      Except.error (SubmitError.apiErr "error rate 100%!(NOVERB)") ∧
    ("error rate 100%!(NOVERB)" : String) ≠ "error rate 100%" ∧
    (submitDocuments fsDemo "https://api.exercism.io/v1" subDemo
        (fun _ => Except.ok
          { statusCode := 400,
            body := { decoded := Except.error "invalid character i",
                      drained := Except.ok () } })).2 =
      Except.error
        (SubmitError.protocolErr
          "failed to parse error response - invalid character i") :=
  ⟨rfl, by decide, rfl⟩

/-- C4: a file whose size is at least 65535 bytes makes document collection
fail the whole batch with `FileTooLargeError` naming that file and the limit
(no Document list is produced), while a file of 65534 bytes is accepted into
the produced Document list. -/
theorem claim_C4_size_boundary (fs : FS) (ex : Exercise) :
    (∀ pre f post c, (∀ a ∈ pre, goodInput fs ex.Filepath a = true) →
      FS.readFile fs f = some c → maxFileSize ≤ c.length →
      submitDocumentsList fs ex (pre ++ f :: post) =
        Except.error (SubmitError.fileTooLarge f maxFileSize)) ∧
    (∀ args a c, (∀ b ∈ args, goodInput fs ex.Filepath b = true) →
      a ∈ args → FS.readFile fs a = some c → c.length = 65534 →
      ∃ docs, submitDocumentsList fs ex args = Except.ok docs ∧
        toDoc ex.Filepath a ∈ docs) := by
  constructor
  · intro pre f post c hpre hf hc
    unfold submitDocumentsList
    rw [documentsLoop_tooLarge fs ex.Filepath pre f post c hpre hf hc]
  · intro args a c hgood ha hf hlen
    have hkeep : keepFile fs a = true := by simp [keepFile, hf, hlen]
    have hmem : a ∈ args.filter (keepFile fs) := List.mem_filter.mpr ⟨ha, hkeep⟩
    unfold submitDocumentsList
    rw [documentsLoop_eq fs ex.Filepath args hgood]
    cases hl : (args.filter (keepFile fs)).map (toDoc ex.Filepath) with
    | nil =>
      rw [List.map_eq_nil_iff] at hl
      rw [hl] at hmem
      exact absurd hmem (by simp)
    | cons d ds =>
      refine ⟨d :: ds, rfl, ?_⟩
      rw [← hl]
      exact List.mem_map_of_mem _ hmem

theorem goodInput_intro {fs : FS} {root a : String} {c : List Nat}
    (h : FS.readFile fs a = some c) (h1 : c.length < maxFileSize)
    (h2 : strHasPrefix (root ++ "/") a = true) :
    goodInput fs root a = true := by
  unfold goodInput
  rw [h]
  simp [h1, h2]

/-- C4 witness: a 65535-byte file is rejected naming it and the limit; a
65534-byte file is accepted into the Document list. -/
theorem claim_C4_size_boundary_witness :
    submitDocumentsList
        [("/ws/go/hello/big.go", Entry.file (List.replicate 65535 0))] exDemo
        ([] ++ "/ws/go/hello/big.go" :: []) =
      Except.error (SubmitError.fileTooLarge "/ws/go/hello/big.go" maxFileSize) ∧
    ∃ docs, submitDocumentsList
        [("/ws/go/hello/ok.go", Entry.file (List.replicate 65534 0))] exDemo
        ["/ws/go/hello/ok.go"] = Except.ok docs ∧
      toDoc exDemo.Filepath "/ws/go/hello/ok.go" ∈ docs :=
  ⟨(claim_C4_size_boundary _ exDemo).1 [] _ [] _
      (fun a ha => absurd ha (List.not_mem_nil a)) rfl
      (by rw [List.length_replicate]; decide),
    (claim_C4_size_boundary _ exDemo).2 ["/ws/go/hello/ok.go"] _
      (List.replicate 65534 0)
      (by
        intro b hb
        simp at hb
        subst hb
        exact goodInput_intro rfl
          (by rw [List.length_replicate]; decide) (by decide))
      (by simp) rfl (by rw [List.length_replicate])⟩

/-- C5: an empty file is skipped — it contributes no Document and does not
abort the batch when some other file qualifies (the produced list is exactly
one Document per non-empty file, none of them for an empty file) — and when
zero Documents are produced the stage fails with `NoFilesToSubmitError`. -/
theorem claim_C5_empty_skip (fs : FS) (ex : Exercise) (args : List String)
    (hgood : ∀ a ∈ args, goodInput fs ex.Filepath a = true) :
    ((∃ a ∈ args, keepFile fs a = true) →
      submitDocumentsList fs ex args =
        Except.ok ((args.filter (keepFile fs)).map (toDoc ex.Filepath)) ∧
      (args.filter (keepFile fs)).map (toDoc ex.Filepath) ≠ [] ∧
      (∀ z ∈ args, FS.readFile fs z = some [] →
        toDoc ex.Filepath z ∉
          (args.filter (keepFile fs)).map (toDoc ex.Filepath))) ∧
    ((∀ a ∈ args, keepFile fs a = false) →
      submitDocumentsList fs ex args =
        Except.error SubmitError.noFilesToSubmit) := by
  constructor
  · rintro ⟨a0, ha0, hk0⟩
    have hmem : a0 ∈ args.filter (keepFile fs) := List.mem_filter.mpr ⟨ha0, hk0⟩
    have hne : (args.filter (keepFile fs)).map (toDoc ex.Filepath) ≠ [] := by
      intro hnil
      rw [List.map_eq_nil_iff] at hnil
      rw [hnil] at hmem
      simp at hmem
    refine ⟨?_, hne, ?_⟩
    · unfold submitDocumentsList
      rw [documentsLoop_eq fs ex.Filepath args hgood]
      cases hl : (args.filter (keepFile fs)).map (toDoc ex.Filepath) with
      | nil => exact absurd hl hne
      | cons d ds => simp only [hl]
    · intro z hz hempty hmemz
      obtain ⟨b, hbfilter, hbeq⟩ := List.mem_map.mp hmemz
      have hzb : b = z := congrArg Document.filepath hbeq
      have hkb : keepFile fs b = true := (List.mem_filter.mp hbfilter).2
      rw [hzb] at hkb
      simp [keepFile, hempty] at hkb
  · intro hall
    have hfil : args.filter (keepFile fs) = [] := by
      rw [List.filter_eq_nil_iff]
      intro a ha
      simp [hall a ha]
    unfold submitDocumentsList
    rw [documentsLoop_eq fs ex.Filepath args hgood, hfil]
    rfl

/-- The filesystem of the C5 witness: one two-byte file and one empty file
under the demo exercise. -/
def fsC5 : FS :=
  [("/ws/go/hello/a.txt", Entry.file [104, 105]),
   ("/ws/go/hello/b.txt", Entry.file [])]

/-- C5 witness: with one non-empty and one empty file, collection succeeds,
the list is non-empty, and the empty file's Document is absent; with the
empty file alone, collection fails with `NoFilesToSubmitError`. -/
theorem claim_C5_empty_skip_witness :
    (submitDocumentsList fsC5 exDemo
        ["/ws/go/hello/a.txt", "/ws/go/hello/b.txt"] =
      Except.ok
        ((["/ws/go/hello/a.txt", "/ws/go/hello/b.txt"].filter
          (keepFile fsC5)).map (toDoc exDemo.Filepath)) ∧
      (["/ws/go/hello/a.txt", "/ws/go/hello/b.txt"].filter
          (keepFile fsC5)).map (toDoc exDemo.Filepath) ≠ [] ∧
      (∀ z ∈ ["/ws/go/hello/a.txt", "/ws/go/hello/b.txt"],
        FS.readFile fsC5 z = some [] →
        toDoc exDemo.Filepath z ∉
          (["/ws/go/hello/a.txt", "/ws/go/hello/b.txt"].filter
            (keepFile fsC5)).map (toDoc exDemo.Filepath))) ∧
    submitDocumentsList fsC5 exDemo ["/ws/go/hello/b.txt"] =
      Except.error SubmitError.noFilesToSubmit :=
  ⟨(claim_C5_empty_skip fsC5 exDemo _ (by decide)).1 (by decide),
   (claim_C5_empty_skip fsC5 exDemo _ (by decide)).2 (by decide)⟩

/-- C6: when every path resolves to an exercise directory (directories are
non-empty path strings) and two of them resolve to different directories —
whatever the order — exercise matching fails with `MixedSolutionError`; when
all resolve to the same directory, exactly one Exercise is constructed from
that agreed-upon directory. -/
theorem claim_C6_mixed_solution (resolver : String → Except WsError String)
    (args : List String)
    (hres : ∀ a ∈ args, ∃ d, resolver a = Except.ok d ∧ d ≠ "") :
    ((∃ a ∈ args, ∃ b ∈ args, ∃ da db, resolver a = Except.ok da ∧
        resolver b = Except.ok db ∧ da ≠ db) →
      submitExercise resolver args = Except.error SubmitError.mixedSolution) ∧
    (∀ d, args ≠ [] → (∀ a ∈ args, resolver a = Except.ok d) →
      submitExercise resolver args = Except.ok (NewExerciseFromDir d)) := by
  constructor
  · rintro ⟨x, hx, y, hy, dx, dy, hdx, hdy, hne⟩
    cases args with
    | nil => simp at hx
    | cons a as =>
      obtain ⟨d1, hd1, hd1ne⟩ := hres a (by simp)
      unfold submitExercise
      have hloop : exerciseDirLoop resolver "" (a :: as) =
          exerciseDirLoop resolver d1 as := by
        rw [exerciseDirLoop]
        simp only [hd1]
        rw [if_neg (by simp)]
      have hwit : ∃ w ∈ as, ∃ dw, resolver w = Except.ok dw ∧ dw ≠ d1 := by
        by_cases hxd : dx = d1
        · have hyne : dy ≠ d1 := by rw [← hxd]; exact Ne.symm hne
          have hyas : y ∈ as := by
            rcases List.mem_cons.mp hy with h | h
            · subst h
              rw [hd1] at hdy
              exact absurd (Except.ok.inj hdy) (Ne.symm hyne)
            · exact h
          exact ⟨y, hyas, dy, hdy, hyne⟩
        · have hxas : x ∈ as := by
            rcases List.mem_cons.mp hx with h | h
            · subst h
              rw [hd1] at hdx
              exact absurd (Except.ok.inj hdx) (Ne.symm hxd)
            · exact h
          exact ⟨x, hxas, dx, hdx, hxd⟩
      rw [hloop, exerciseDirLoop_mismatch resolver d1 as hd1ne
        (fun b hb => hres b (by simp [hb])) hwit]
  · intro d hargs hall
    cases args with
    | nil => exact absurd rfl hargs
    | cons a as =>
      unfold submitExercise
      have hloop : exerciseDirLoop resolver "" (a :: as) =
          exerciseDirLoop resolver d as := by
        rw [exerciseDirLoop]
        simp only [hall a (by simp)]
        rw [if_neg (by simp)]
      rw [hloop, exerciseDirLoop_all_same resolver d as
        (fun b hb => hall b (by simp [hb]))]

/-- The workspace resolver of the C6 witness: one file belongs to the tiger
exercise directory, everything else to the hello one. -/
def resC6 : String → Except WsError String := fun p =>
  if p = "/ws/go/tiger/t.go" then Except.ok "/ws/go/tiger"
  else Except.ok "/ws/go/hello"

/-- C6 witness: two files of different exercises are rejected as a mixed
solution; two files of the same exercise produce that exercise. -/
theorem claim_C6_mixed_solution_witness :
    submitExercise resC6 ["/ws/go/hello/a.go", "/ws/go/tiger/t.go"] =
      Except.error SubmitError.mixedSolution ∧
    submitExercise resC6 ["/ws/go/hello/a.go", "/ws/go/hello/b.go"] =
      Except.ok (NewExerciseFromDir "/ws/go/hello") :=
  ⟨(claim_C6_mixed_solution resC6 _
      (by
        intro a ha
        simp at ha
        rcases ha with rfl | rfl
        · exact ⟨"/ws/go/hello", rfl, by decide⟩
        · exact ⟨"/ws/go/tiger", rfl, by decide⟩)).1
      ⟨"/ws/go/hello/a.go", by simp, "/ws/go/tiger/t.go", by simp,
        "/ws/go/hello", "/ws/go/tiger", rfl, rfl, by decide⟩,
   (claim_C6_mixed_solution resC6 _
      (by
        intro a ha
        simp at ha
        rcases ha with rfl | rfl
        · exact ⟨"/ws/go/hello", rfl, by decide⟩
        · exact ⟨"/ws/go/hello", rfl, by decide⟩)).2
      "/ws/go/hello" (by simp)
      (by
        intro a ha
        simp at ha
        rcases ha with rfl | rfl
        · rfl
        · rfl)⟩

/-- On good inputs with at least one non-empty file, document collection
returns exactly the Documents of the non-empty files, in input order. -/
theorem submitDocumentsList_ok (fs : FS) (ex : Exercise) (args : List String)
    (hgood : ∀ a ∈ args, goodInput fs ex.Filepath a = true)
    (hsome : ∃ a ∈ args, keepFile fs a = true) :
    submitDocumentsList fs ex args =
      Except.ok ((args.filter (keepFile fs)).map (toDoc ex.Filepath)) := by
  obtain ⟨a0, ha0, hk0⟩ := hsome
  have hmem : a0 ∈ args.filter (keepFile fs) := List.mem_filter.mpr ⟨ha0, hk0⟩
  unfold submitDocumentsList
  rw [documentsLoop_eq fs ex.Filepath args hgood]
  cases hl : (args.filter (keepFile fs)).map (toDoc ex.Filepath) with
  | nil =>
    rw [List.map_eq_nil_iff] at hl
    rw [hl] at hmem
    simp at hmem
  | cons d ds => simp only [hl]

/-- C1: on an input list in which every path is a readable file under the
exercise root and within the size limit (at least one non-empty), with a
non-empty solution ID, the pipeline issues exactly one HTTP request: a PATCH
to `{apibaseurl}/solutions/{metadata.ID}` whose multipart body has exactly
one part per non-empty input file — field name literally `files[]`, filename
the path relative to the exercise root, in the input order. -/
theorem claim_C1_single_patch_request (fs : FS) (base : String) (ex : Exercise)
    (md : ExerciseMetadata) (args : List String)
    (transport : Request → Except String Response)
    (hid : md.ID ≠ "")
    (hgood : ∀ a ∈ args, goodInput fs ex.Filepath a = true)
    (hsome : ∃ a ∈ args, keepFile fs a = true) :
    ∃ docs req,
      submitDocumentsList fs ex args = Except.ok docs ∧
      (submitDocuments fs base
          { exercise := ex, metadata := md, documents := docs } transport).1 =
        [req] ∧
      req.method = "PATCH" ∧
      req.url = base ++ "/solutions/" ++ md.ID ∧
      req.parts = (args.filter (keepFile fs)).map (fun a =>
        { fieldName := "files[]",
          fileName := a.drop (ex.Filepath.length + 1),
          content := (FS.readFile fs a).getD [] }) := by
  have hsubl := submitDocumentsList_ok fs ex args hgood hsome
  obtain ⟨a0, ha0, hk0⟩ := hsome
  have hmem : a0 ∈ args.filter (keepFile fs) := List.mem_filter.mpr ⟨ha0, hk0⟩
  have hdocs_ne : (args.filter (keepFile fs)).map (toDoc ex.Filepath) ≠ [] := by
    intro hnil
    rw [List.map_eq_nil_iff] at hnil
    rw [hnil] at hmem
    simp at hmem
  have hread : ∀ d ∈ (args.filter (keepFile fs)).map (toDoc ex.Filepath),
      (FS.readFile fs d.filepath).isSome = true := by
    intro d hd
    obtain ⟨b, hb, hbd⟩ := List.mem_map.mp hd
    obtain ⟨c, hc, _, _⟩ :=
      goodInput_elim (hgood b (List.mem_filter.mp hb).1)
    rw [← hbd]
    simp [toDoc, hc]
  refine ⟨(args.filter (keepFile fs)).map (toDoc ex.Filepath),
    reqOf fs base
      { exercise := ex, metadata := md,
        documents := (args.filter (keepFile fs)).map (toDoc ex.Filepath) },
    hsubl,
    submitDocuments_fst fs base _ transport hid hdocs_ne hread,
    rfl, rfl, ?_⟩
  show ((args.filter (keepFile fs)).map (toDoc ex.Filepath)).map (partOf fs) = _
  rw [List.map_map]
  rfl

/-- C1 witness: two files, one empty, under the demo exercise produce one
PATCH request to the demo solution URL with exactly one `files[]` part. -/
theorem claim_C1_single_patch_request_witness :
    ∃ docs req,
      submitDocumentsList fsC5 exDemo
          ["/ws/go/hello/a.txt", "/ws/go/hello/b.txt"] = Except.ok docs ∧
      (submitDocuments fsC5 "https://api.exercism.io/v1"
          { exercise := exDemo, metadata := mdDemo, documents := docs }
          (fun _ => Except.ok
            { statusCode := 200,
              body := { decoded := Except.error "EOF",
                        drained := Except.ok () } })).1 = [req] ∧
      req.method = "PATCH" ∧
      req.url = "https://api.exercism.io/v1" ++ "/solutions/" ++ mdDemo.ID ∧
      req.parts = ((["/ws/go/hello/a.txt", "/ws/go/hello/b.txt"].filter
          (keepFile fsC5)).map (fun a =>
        { fieldName := "files[]",
          fileName := a.drop (exDemo.Filepath.length + 1),
          content := (FS.readFile fsC5 a).getD [] })) :=
  claim_C1_single_patch_request fsC5 "https://api.exercism.io/v1" exDemo
    mdDemo _ _ (by decide) (by decide) (by decide)
